import Mathlib

/-!
Verification of the session/game-state engine of a two-player tic-tac-toe
coordination service (source: `src/index.js`).

The engine is embedded shallowly:
* cells are `Option Mark` (`none` is the JS `null` empty cell);
* the session store `games` is an association list in insertion order,
  mirroring a JS object's key semantics (assignment replaces in place,
  `delete` removes, `for..in` iterates in insertion order);
* each socket handler becomes a pure function from the store (plus the
  event's payload and the requester's socket id) to the updated store and
  its user-visible result; early `return socket.emit(error)` paths return
  the store unchanged, as the JS code mutates nothing before them;
* JS index reads `board[i]` are modelled by `jsRead`, which yields an
  outer `none` for the out-of-range `undefined`.
-/

/-- A player symbol, the JS strings `'X'` and `'O'`. -/
inductive Mark where
  | X : Mark
  | O : Mark
deriving DecidableEq, Repr, Fintype

/-- A value stored in `game.winner`: a winning symbol or the string `'Tie'`. -/
inductive WinResult where
  | sym (s : Mark) : WinResult
  | tie : WinResult
deriving DecidableEq, Repr

/-- A 9-cell board; `none` is the empty cell (`null` in JS). -/
abbrev Board := List (Option Mark)

/-- The `winPatterns` table of `checkWinner`: 3 rows, 3 columns, 2 diagonals. -/
def winPatterns : List (Nat × Nat × Nat) :=
  [(0, 1, 2), (3, 4, 5), (6, 7, 8),
   (0, 3, 6), (1, 4, 7), (2, 5, 8),
   (0, 4, 8), (2, 4, 6)]

/-- One iteration of the `checkWinner` loop: JS
`board[a] && board[a] === board[b] && board[a] === board[c]` returns
`board[a]`.  `List.getD _ none` reads a cell with both `null` and the
out-of-range `undefined` collapsing to `none`, which JS treats as falsy. -/
def tripleWinner (board : Board) (p : Nat × Nat × Nat) : Option Mark :=
  match board.getD p.1 none with
  | none => none
  | some s =>
      if board.getD p.2.1 none = some s ∧ board.getD p.2.2 none = some s then
        some s
      else
        none

/-- `checkWinner(board)`: first winning pattern's symbol, else `'Tie'` when
`board.includes(null)` is false, else `null`. -/
def checkWinner (board : Board) : Option WinResult :=
  match winPatterns.findSome? (tripleWinner board) with
  | some s => some (WinResult.sym s)
  | none => if none ∈ board then none else some WinResult.tie

/-- Spec-side predicate: pattern `p`'s three cells are uniformly the
non-empty symbol `s`. -/
def lineWins (board : Board) (p : Nat × Nat × Nat) (s : Mark) : Prop :=
  board.getD p.1 none = some s ∧ board.getD p.2.1 none = some s ∧
    board.getD p.2.2 none = some s

instance (board : Board) (p : Nat × Nat × Nat) (s : Mark) :
    Decidable (lineWins board p s) := by
  unfold lineWins; infer_instance

theorem tripleWinner_eq_some_iff (board : Board) (p : Nat × Nat × Nat)
    (s : Mark) : tripleWinner board p = some s ↔ lineWins board p s := by
  unfold tripleWinner lineWins
  cases h : board.getD p.1 none with
  | none => simp
  | some t =>
    show (if board.getD p.2.1 none = some t ∧ board.getD p.2.2 none = some t
        then some t else none) = some s ↔
      some t = some s ∧ board.getD p.2.1 none = some s ∧
        board.getD p.2.2 none = some s
    by_cases hc : board.getD p.2.1 none = some t ∧
        board.getD p.2.2 none = some t
    · rw [if_pos hc]
      constructor
      · intro hs
        cases hs
        exact ⟨rfl, hc.1, hc.2⟩
      · rintro ⟨hts, -, -⟩
        cases hts
        rfl
    · rw [if_neg hc]
      constructor
      · intro hs
        cases hs
      · rintro ⟨hts, h1, h2⟩
        cases hts
        exact absurd ⟨h1, h2⟩ hc

theorem tripleWinner_eq_none_iff (board : Board) (p : Nat × Nat × Nat) :
    tripleWinner board p = none ↔ ∀ s : Mark, ¬ lineWins board p s := by
  constructor
  · intro h s hs
    rw [← tripleWinner_eq_some_iff] at hs
    rw [h] at hs
    cases hs
  · intro h
    cases ht : tripleWinner board p with
    | none => rfl
    | some s => exact absurd ((tripleWinner_eq_some_iff board p s).mp ht) (h s)

/-- Claim C1: on every 9-cell board, `checkWinner` returns `Win s` iff some
row, column or diagonal is uniformly the non-empty symbol `s` and the first
winning line in the fixed order (rows, then columns, then diagonals) wins
with `s`; returns `Tie` iff no cell is empty and no line wins; and `None`
(JS `null`) iff some cell is empty and no line wins. -/
theorem checkWinner_spec (board : Board) (_hlen : board.length = 9) :
    (∀ s : Mark, checkWinner board = some (WinResult.sym s) ↔
      ∃ pre p post, winPatterns = pre ++ p :: post ∧ lineWins board p s ∧
        ∀ q ∈ pre, ∀ t : Mark, ¬ lineWins board q t)
  ∧ (checkWinner board = some WinResult.tie ↔
      ((∀ c ∈ board, c ≠ none) ∧
        ∀ p ∈ winPatterns, ∀ s : Mark, ¬ lineWins board p s))
  ∧ (checkWinner board = none ↔
      ((∃ c ∈ board, c = none) ∧
        ∀ p ∈ winPatterns, ∀ s : Mark, ¬ lineWins board p s)) := by
  cases hw : winPatterns.findSome? (tripleWinner board) with
  | some s0 =>
    have hcw : checkWinner board = some (WinResult.sym s0) := by
      unfold checkWinner
      rw [hw]
    obtain ⟨pre, p, post, hdec, hp, hpre⟩ := List.findSome?_eq_some_iff.mp hw
    have hpmem : p ∈ winPatterns := by
      rw [hdec]
      exact List.mem_append_right _ (List.mem_cons_self _ _)
    have hpwin : lineWins board p s0 := (tripleWinner_eq_some_iff _ _ _).mp hp
    refine ⟨?_, ?_, ?_⟩
    · intro s
      rw [hcw]
      constructor
      · intro hs
        obtain rfl : s0 = s := by
          cases hs
          rfl
        refine ⟨pre, p, post, hdec, hpwin, fun q hq t => ?_⟩
        exact (tripleWinner_eq_none_iff board q).mp (hpre q hq) t
      · rintro ⟨pre', p', post', hdec', hwin', hpre'⟩
        have hother : winPatterns.findSome? (tripleWinner board) = some s := by
          rw [hdec', List.findSome?_append,
            List.findSome?_eq_none_iff.mpr (fun q hq =>
              (tripleWinner_eq_none_iff board q).mpr (hpre' q hq))]
          rw [List.findSome?_cons_of_isSome _
            (by rw [(tripleWinner_eq_some_iff board p' s).mpr hwin']; rfl)]
          rw [(tripleWinner_eq_some_iff board p' s).mpr hwin']
          rfl
        rw [hw] at hother
        cases hother
        rfl
    · rw [hcw]
      constructor
      · intro hs
        cases hs
      · rintro ⟨-, hnw⟩
        exact absurd hpwin (hnw p hpmem s0)
    · rw [hcw]
      constructor
      · intro hs
        cases hs
      · rintro ⟨-, hnw⟩
        exact absurd hpwin (hnw p hpmem s0)
  | none =>
    have hnw : ∀ p ∈ winPatterns, ∀ s : Mark, ¬ lineWins board p s :=
      fun p hp => (tripleWinner_eq_none_iff board p).mp
        (List.findSome?_eq_none_iff.mp hw p hp)
    have hcw : checkWinner board =
        if none ∈ board then none else some WinResult.tie := by
      unfold checkWinner
      rw [hw]
    by_cases hmem : none ∈ board
    · rw [hcw, if_pos hmem]
      refine ⟨?_, ?_, ?_⟩
      · intro s
        constructor
        · intro hs
          cases hs
        · rintro ⟨pre', p', post', hdec', hwin', -⟩
          have : p' ∈ winPatterns := by
            rw [hdec']
            exact List.mem_append_right _ (List.mem_cons_self _ _)
          exact absurd hwin' (hnw p' this s)
      · constructor
        · intro hs
          cases hs
        · rintro ⟨hfull, -⟩
          exact absurd rfl (hfull none hmem)
      · exact ⟨fun _ => ⟨⟨none, hmem, rfl⟩, hnw⟩, fun _ => rfl⟩
    · rw [hcw, if_neg hmem]
      refine ⟨?_, ?_, ?_⟩
      · intro s
        constructor
        · intro hs
          cases hs
        · rintro ⟨pre', p', post', hdec', hwin', -⟩
          have : p' ∈ winPatterns := by
            rw [hdec']
            exact List.mem_append_right _ (List.mem_cons_self _ _)
          exact absurd hwin' (hnw p' this s)
      · refine ⟨fun _ => ⟨fun c hc hcn => ?_, hnw⟩, fun _ => rfl⟩
        subst hcn
        exact hmem hc
      · constructor
        · intro hs
          cases hs
        · rintro ⟨⟨c, hc, hcn⟩, -⟩
          subst hcn
          exact absurd hc hmem

/-- Witness for `checkWinner_spec` at the board `[X,X,X,_,O,O,_,_,_]`:
row 0 wins, so the result is `Win X`. -/
theorem checkWinner_spec_witness :
    checkWinner [some Mark.X, some Mark.X, some Mark.X, none, some Mark.O,
      some Mark.O, none, none, none] = some (WinResult.sym Mark.X) :=
  ((checkWinner_spec [some Mark.X, some Mark.X, some Mark.X, none,
      some Mark.O, some Mark.O, none, none, none] rfl).1 Mark.X).mpr
    ⟨[], (0, 1, 2),
      [(3, 4, 5), (6, 7, 8), (0, 3, 6), (1, 4, 7), (2, 5, 8), (0, 4, 8),
        (2, 4, 6)],
      rfl, by decide, by simp⟩

/-- A participant, as pushed into `game.players`. -/
structure Player where
  id : String
  username : String
  symbol : Mark
  disconnected : Bool
deriving DecidableEq, Repr

/-- A session record, the value stored in `games[gameId]`.  `winner` is
`none` both when the property is absent (as on creation) and when it is
`null` (as after a rematch); the code only ever tests its truthiness. -/
structure Game where
  players : List Player
  board : Board
  currentPlayer : Mark
  status : String
  winner : Option WinResult
deriving DecidableEq, Repr

/-- The global `games` object: an association list in insertion order,
with the unique-key discipline of a JS object. -/
abbrev Store := List (String × Game)

/-- `games[gameId]` lookup. -/
def getGame (s : Store) (gameId : String) : Option Game :=
  (s.find? (fun e => e.1 == gameId)).map Prod.snd

/-- `games[gameId] = g`: replace in place when the key exists (JS keeps the
key's position), append otherwise. -/
def setGame (s : Store) (gameId : String) (g : Game) : Store :=
  if s.any (fun e => e.1 == gameId) then
    s.map (fun e => if e.1 == gameId then (gameId, g) else e)
  else
    s ++ [(gameId, g)]

/-- `delete games[gameId]`. -/
def delGame (s : Store) (gameId : String) : Store :=
  s.filter (fun e => e.1 != gameId)

/-- A JS read `board[i]` for an integer `i`: the outer `none` is the
`undefined` produced by an out-of-range index. -/
def jsRead (board : Board) (i : Int) : Option (Option Mark) :=
  if i < 0 then none else board.get? i.toNat

/-- `game.board[cellIndex] !== null`: `undefined` and occupied cells both
differ from `null`; only an in-range empty cell compares equal to it. -/
def cellNotNull (board : Board) (i : Int) : Bool :=
  match jsRead board i with
  | some none => false
  | _ => true

/-- `username || default`: JS treats the empty string as falsy. -/
def defaultName (username : Option String) (fallback : String) : String :=
  match username with
  | some u => if u = "" then fallback else u
  | none => fallback

/-- `currentPlayer === 'X' ? 'O' : 'X'`. -/
def flipMark : Mark → Mark
  | Mark.X => Mark.O
  | Mark.O => Mark.X

/-- The `createGame` handler.  The random token
`Math.random().toString(36).substring(2, 11)` and the random default-name
number are inputs; the handler never fails.  Returns the updated store and
the created game id. -/
def createGame (s : Store) (token : String) (username : Option String)
    (defaultNum : Nat) (socketId : String) : Store × String :=
  let gameId := "game_" ++ token
  let playerName := defaultName username ("Player_" ++ toString defaultNum)
  let g : Game :=
    { players := [{ id := socketId, username := playerName,
                    symbol := Mark.X, disconnected := false }]
      board := List.replicate 9 none
      currentPlayer := Mark.X
      status := "waiting"
      winner := none }
  (setGame s gameId g, gameId)

/-- Result of the `joinGame` handler, as emitted to the requester. -/
inductive JoinResult where
  | notFound : JoinResult
  | full : JoinResult
  | success (symbol : Mark) : JoinResult
deriving DecidableEq, Repr

/-- The `joinGame` handler. -/
def joinGame (s : Store) (gameId : String) (username : Option String)
    (defaultNum : Nat) (socketId : String) : Store × JoinResult :=
  match getGame s gameId with
  | none => (s, JoinResult.notFound)
  | some g =>
      if g.players.length ≥ 2 then
        (s, JoinResult.full)
      else
        let playerName :=
          defaultName username ("Player_" ++ toString defaultNum)
        let g' : Game :=
          { g with
              players := g.players ++
                [{ id := socketId, username := playerName,
                   symbol := Mark.O, disconnected := false }]
              status := "in-progress" }
        (setGame s gameId g', JoinResult.success Mark.O)

/-- A `moveError` payload of the `makeMove` handler. -/
inductive MoveErr where
  | notFound : MoveErr
  | cellTaken : MoveErr
  | notYourTurn : MoveErr
deriving DecidableEq, Repr

/-- The `makeMove` handler.  `cellIndex` is any integer, as nothing in the
code restricts it to 0–8. -/
def makeMove (s : Store) (gameId : String) (cellIndex : Int)
    (socketId : String) : Store × Option MoveErr :=
  match getGame s gameId with
  | none => (s, some MoveErr.notFound)
  | some game =>
      if cellNotNull game.board cellIndex then
        (s, some MoveErr.cellTaken)
      else
        match game.players.find? (fun p => p.id == socketId) with
        | none => (s, some MoveErr.notYourTurn)
        | some player =>
            if player.symbol ≠ game.currentPlayer then
              (s, some MoveErr.notYourTurn)
            else
              let board' :=
                game.board.set cellIndex.toNat (some game.currentPlayer)
              let game' :=
                match checkWinner board' with
                | some w => { game with board := board', winner := some w }
                | none =>
                    { game with
                        board := board'
                        currentPlayer := flipMark game.currentPlayer }
              (setGame s gameId game', none)

/-- Result acknowledged through the `requestRematch` callback. -/
inductive RematchResult where
  | notFound : RematchResult
  | success : RematchResult
deriving DecidableEq, Repr

/-- The `requestRematch` handler. -/
def requestRematch (s : Store) (gameId : String) : Store × RematchResult :=
  match getGame s gameId with
  | none => (s, RematchResult.notFound)
  | some game =>
      let game' : Game :=
        { game with
            board := List.replicate 9 none
            currentPlayer := Mark.X
            winner := none
            status := "in-progress" }
      (setGame s gameId game', RematchResult.success)

/-- An event emitted to a single connection during leave or disconnect
handling. -/
inductive Event where
  | playerLeft (targetId : String) : Event
deriving DecidableEq, Repr

/-- The `leaveGame` handler: remove the requester from the session; notify
`game.players[0]` if someone remains, delete the session otherwise. -/
def leaveGame (s : Store) (gameId : String) (socketId : String) :
    Store × List Event :=
  match getGame s gameId with
  | none => (s, [])
  | some game =>
      match game.players.findIdx? (fun p => p.id == socketId) with
      | none => (s, [])
      | some i =>
          match game.players.eraseIdx i with
          | [] => (delGame s gameId, [])
          | q :: qs =>
              (setGame s gameId { game with players := q :: qs },
               [Event.playerLeft q.id])

/-- The `disconnect` handler's `for (const gameId in games)` scan: find the
first session containing the socket, remove the player there, and `break`;
sessions before the match are traversed untouched and sessions after it are
never visited. -/
def disconnectScan (socketId : String) : Store → Store × List Event
  | [] => ([], [])
  | (gameId, game) :: rest =>
      match game.players.findIdx? (fun p => p.id == socketId) with
      | some i =>
          match game.players.eraseIdx i with
          | [] => (rest, [])
          | q :: qs =>
              ((gameId, { game with players := q :: qs }) :: rest,
               [Event.playerLeft q.id])
      | none =>
          let r := disconnectScan socketId rest
          ((gameId, game) :: r.1, r.2)

/-- The `disconnect` handler. -/
def disconnectGame (s : Store) (socketId : String) : Store × List Event :=
  disconnectScan socketId s

/-- One inbound event of the kinds that mutate the store (chat never
does).  Random tokens and random default-name numbers are carried as
data. -/
inductive Op where
  | create (token : String) (username : Option String) (defaultNum : Nat)
      (socketId : String) : Op
  | join (gameId : String) (username : Option String) (defaultNum : Nat)
      (socketId : String) : Op
  | move (gameId : String) (cellIndex : Int) (socketId : String) : Op
  | rematch (gameId : String) : Op
  | leave (gameId : String) (socketId : String) : Op
  | disconnect (socketId : String) : Op
deriving DecidableEq, Repr

/-- Apply one inbound event to the store. -/
def applyOp (s : Store) : Op → Store
  | Op.create token username defaultNum socketId =>
      (createGame s token username defaultNum socketId).1
  | Op.join gameId username defaultNum socketId =>
      (joinGame s gameId username defaultNum socketId).1
  | Op.move gameId cellIndex socketId =>
      (makeMove s gameId cellIndex socketId).1
  | Op.rematch gameId => (requestRematch s gameId).1
  | Op.leave gameId socketId => (leaveGame s gameId socketId).1
  | Op.disconnect socketId => (disconnectGame s socketId).1

/-- Stores reachable from the empty store by any sequence of events. -/
inductive Reachable : Store → Prop
  | empty : Reachable []
  | next {s : Store} (h : Reachable s) (op : Op) : Reachable (applyOp s op)

/-- Run a whole event trace from a store. -/
def runOps (s : Store) (ops : List Op) : Store :=
  ops.foldl applyOp s

theorem reachable_runOps (s : Store) (h : Reachable s) (ops : List Op) :
    Reachable (runOps s ops) := by
  induction ops generalizing s with
  | nil => exact h
  | cons op rest ih => exact ih _ (Reachable.next h op)

theorem getGame_eq_none_iff (s : Store) (k : String) :
    getGame s k = none ↔ ∀ e ∈ s, e.1 ≠ k := by
  constructor
  · intro h e he hk
    unfold getGame at h
    cases hf : s.find? (fun e => e.1 == k) with
    | none =>
        have := List.find?_eq_none.mp hf e he
        simp at this
        exact this hk
    | some x => rw [hf] at h; cases h
  · intro h
    unfold getGame
    rw [List.find?_eq_none.mpr]
    · rfl
    · intro e he
      simpa using h e he

theorem getGame_mem (s : Store) (k : String) (g : Game)
    (h : getGame s k = some g) : (k, g) ∈ s := by
  unfold getGame at h
  cases hf : s.find? (fun e => e.1 == k) with
  | none => rw [hf] at h; cases h
  | some e =>
      rw [hf] at h
      have hm := List.mem_of_find?_eq_some hf
      have hp := List.find?_some hf
      obtain ⟨k', g'⟩ := e
      simp at hp
      cases h
      rw [hp] at hm
      exact hm

theorem find?_map_replace (s : Store) (k : String) (g : Game)
    (h : ∃ e ∈ s, e.1 = k) :
    (s.map (fun e => if e.1 == k then (k, g) else e)).find?
      (fun e => e.1 == k) = some (k, g) := by
  induction s with
  | nil => simp at h
  | cons e rest ih =>
      by_cases he : e.1 = k
      · simp [he]
      · rw [List.map_cons, if_neg (by simpa using he),
          List.find?_cons_of_neg _ (by simpa using he)]
        obtain ⟨e', he', hk⟩ := h
        rcases List.mem_cons.mp he' with rfl | hmem
        · exact absurd hk he
        · exact ih ⟨e', hmem, hk⟩

theorem find?_map_replace_ne (s : Store) (k k' : String) (g : Game)
    (h : k' ≠ k) :
    (s.map (fun e => if e.1 == k then (k, g) else e)).find?
      (fun e => e.1 == k') = s.find? (fun e => e.1 == k') := by
  induction s with
  | nil => rfl
  | cons e rest ih =>
      by_cases he : e.1 = k
      · rw [List.map_cons, if_pos (by simpa using he),
          List.find?_cons_of_neg _ (by simpa using Ne.symm h),
          List.find?_cons_of_neg _ (by simp [he]; exact fun hh => h hh.symm)]
        exact ih
      · rw [List.map_cons, if_neg (by simpa using he)]
        by_cases he' : e.1 = k'
        · rw [List.find?_cons_of_pos _ (by simpa using he'),
            List.find?_cons_of_pos _ (by simpa using he')]
        · rw [List.find?_cons_of_neg _ (by simpa using he'),
            List.find?_cons_of_neg _ (by simpa using he')]
          exact ih

theorem getGame_setGame_self (s : Store) (k : String) (g : Game) :
    getGame (setGame s k g) k = some g := by
  unfold setGame
  by_cases hany : s.any (fun e => e.1 == k)
  · rw [if_pos hany]
    unfold getGame
    rw [find?_map_replace]
    · rfl
    · obtain ⟨e, he, hk⟩ := List.any_eq_true.mp hany
      exact ⟨e, he, by simpa using hk⟩
  · rw [if_neg hany]
    unfold getGame
    rw [List.find?_append, List.find?_eq_none.mpr]
    · simp
    · intro e he hk
      exact hany (List.any_eq_true.mpr ⟨e, he, hk⟩)

theorem getGame_setGame_ne (s : Store) (k k' : String) (g : Game)
    (h : k' ≠ k) : getGame (setGame s k g) k' = getGame s k' := by
  unfold setGame
  by_cases hany : s.any (fun e => e.1 == k)
  · rw [if_pos hany]
    unfold getGame
    rw [find?_map_replace_ne s k k' g h]
  · rw [if_neg hany]
    unfold getGame
    rw [List.find?_append]
    have : List.find? (fun e => e.1 == k') [(k, g)] = none := by
      rw [List.find?_eq_none]
      intro e he
      rcases List.mem_cons.mp he with rfl | hm
      · simpa using Ne.symm h
      · cases hm
    rw [this, Option.or_none]

theorem mem_setGame (s : Store) (k : String) (g : Game) (e : String × Game)
    (he : e ∈ setGame s k g) : e = (k, g) ∨ e ∈ s := by
  unfold setGame at he
  by_cases hany : s.any (fun x => x.1 == k)
  · rw [if_pos hany] at he
    obtain ⟨x, hx, hxe⟩ := List.mem_map.mp he
    by_cases hk : x.1 = k
    · left
      rw [← hxe, if_pos (by simpa using hk)]
    · right
      rw [← hxe, if_neg (by simpa using hk)]
      exact hx
  · rw [if_neg hany] at he
    rcases List.mem_append.mp he with h1 | h2
    · right; exact h1
    · left; simpa using h2

theorem setGame_of_fresh (s : Store) (k : String) (g : Game)
    (h : getGame s k = none) : setGame s k g = s ++ [(k, g)] := by
  unfold setGame
  rw [if_neg]
  intro hany
  obtain ⟨e, he, hk⟩ := List.any_eq_true.mp hany
  exact (getGame_eq_none_iff s k).mp h e he (by simpa using hk)

theorem mem_delGame (s : Store) (k : String) (e : String × Game)
    (he : e ∈ delGame s k) : e ∈ s :=
  List.mem_of_mem_filter he

theorem cellNotNull_eq_true_iff (b : Board) (i : Int) :
    cellNotNull b i = true ↔ jsRead b i ≠ some none := by
  unfold cellNotNull
  cases h : jsRead b i with
  | none => simp
  | some c => cases c <;> simp

theorem cellNotNull_eq_false_iff (b : Board) (i : Int) :
    cellNotNull b i = false ↔ jsRead b i = some none := by
  rw [← Bool.not_eq_true, cellNotNull_eq_true_iff]
  simp

/-- Claim C2: for every session and every valid move (session exists, the
cell is empty, the requester is a participant whose symbol equals
`currentPlayer`), `makeMove` reports no error and writes the mover's symbol
into `board[cellIndex]`; if the new board evaluates to a win the winner is
recorded and `currentPlayer` is left unchanged, if to a tie the winner
becomes `Tie`, and if to neither then `currentPlayer` flips. -/
theorem makeMove_applies (s : Store) (gameId : String) (cellIndex : Int)
    (socketId : String) (game : Game) (player : Player)
    (hg : getGame s gameId = some game)
    (hcell : jsRead game.board cellIndex = some none)
    (hfind : game.players.find? (fun p => p.id == socketId) = some player)
    (hsym : player.symbol = game.currentPlayer) :
    (makeMove s gameId cellIndex socketId).2 = none ∧
    ∃ game',
      getGame (makeMove s gameId cellIndex socketId).1 gameId = some game' ∧
      game'.board = game.board.set cellIndex.toNat (some player.symbol) ∧
      (∀ t : Mark, checkWinner game'.board = some (WinResult.sym t) →
        game'.winner = some (WinResult.sym t) ∧
        game'.currentPlayer = game.currentPlayer) ∧
      (checkWinner game'.board = some WinResult.tie →
        game'.winner = some WinResult.tie) ∧
      (checkWinner game'.board = none →
        game'.currentPlayer = flipMark game.currentPlayer) := by
  have hcnn : cellNotNull game.board cellIndex = false :=
    (cellNotNull_eq_false_iff _ _).mpr hcell
  rw [hsym]
  unfold makeMove
  rw [hg]
  simp only [hcnn, Bool.false_eq_true, if_false, hfind]
  rw [if_neg (fun hne => hne hsym)]
  cases hcw :
      checkWinner (game.board.set cellIndex.toNat (some game.currentPlayer))
    with
  | some w =>
      simp only [hcw]
      refine ⟨trivial, _, getGame_setGame_self s gameId _, rfl, ?_, ?_, ?_⟩
      · intro t ht
        rw [hcw] at ht
        cases ht
        exact ⟨rfl, rfl⟩
      · intro ht
        rw [hcw] at ht
        cases ht
        rfl
      · intro ht
        rw [hcw] at ht
        cases ht
  | none =>
      simp only [hcw]
      refine ⟨trivial, _, getGame_setGame_self s gameId _, rfl, ?_, ?_, ?_⟩
      · intro t ht
        rw [hcw] at ht
        cases ht
      · intro ht
        rw [hcw] at ht
        cases ht
      · intro _
        rfl

/-- Claim C3: `makeMove` validation short-circuits in the order `NotFound`
(no such session), then `CellTaken` (`board[cellIndex] !== null`), then
`NotYourTurn` (requester not a participant, or symbol differs from
`currentPlayer`); each error leaves the whole store — hence the session's
board, currentPlayer, winner, status and players — unchanged. -/
theorem makeMove_validation (s : Store) (gameId : String) (cellIndex : Int)
    (socketId : String) :
    (getGame s gameId = none →
      makeMove s gameId cellIndex socketId = (s, some MoveErr.notFound)) ∧
    (∀ game, getGame s gameId = some game →
      jsRead game.board cellIndex ≠ some none →
      makeMove s gameId cellIndex socketId = (s, some MoveErr.cellTaken)) ∧
    (∀ game, getGame s gameId = some game →
      jsRead game.board cellIndex = some none →
      (∀ player, game.players.find? (fun p => p.id == socketId) =
        some player → player.symbol ≠ game.currentPlayer) →
      makeMove s gameId cellIndex socketId =
        (s, some MoveErr.notYourTurn)) := by
  refine ⟨?_, ?_, ?_⟩
  · intro h
    unfold makeMove
    rw [h]
  · intro game hg hcell
    have hcnn : cellNotNull game.board cellIndex = true :=
      (cellNotNull_eq_true_iff _ _).mpr hcell
    unfold makeMove
    rw [hg]
    simp only [hcnn, if_true]
  · intro game hg hcell hturn
    have hcnn : cellNotNull game.board cellIndex = false :=
      (cellNotNull_eq_false_iff _ _).mpr hcell
    unfold makeMove
    rw [hg]
    simp only [hcnn, Bool.false_eq_true, if_false]
    cases hfind : game.players.find? (fun p => p.id == socketId) with
    | none => rfl
    | some player =>
        have hne := hturn player hfind
        simp [hne]

/-- Claim C10: for an existing session with its 9-cell board and any
integer `cellIndex` outside 0–8, `makeMove` fails with the `CellTaken`
error — JS `board[cellIndex]` is `undefined`, which is `!== null` — and
returns the store unchanged, so no out-of-bounds write to the board ever
happens. -/
theorem makeMove_out_of_range (s : Store) (gameId : String)
    (cellIndex : Int) (socketId : String) (game : Game)
    (hg : getGame s gameId = some game)
    (hlen : game.board.length = 9)
    (hout : cellIndex < 0 ∨ 9 ≤ cellIndex) :
    makeMove s gameId cellIndex socketId = (s, some MoveErr.cellTaken) := by
  have hread : jsRead game.board cellIndex = none := by
    unfold jsRead
    rcases hout with h | h
    · rw [if_pos h]
    · rw [if_neg (by omega)]
      rw [List.get?_eq_none]
      rw [hlen]
      omega
  have hcnn : cellNotNull game.board cellIndex = true := by
    unfold cellNotNull
    rw [hread]
  unfold makeMove
  rw [hg]
  simp only [hcnn, if_true]

/-- The creator of the sample session: symbol X. -/
def samplePX : Player :=
  { id := "sA", username := "Alice", symbol := Mark.X, disconnected := false }

/-- The joiner of the sample session: symbol O. -/
def samplePO : Player :=
  { id := "sB", username := "Bob", symbol := Mark.O, disconnected := false }

/-- A sample two-player session with an empty board, X to move. -/
def sampleGame : Game :=
  { players := [samplePX, samplePO]
    board := List.replicate 9 none
    currentPlayer := Mark.X
    status := "in-progress"
    winner := none }

/-- A sample session where cell 0 is already taken by X and O is to
move. -/
def takenGame : Game :=
  { players := [samplePX, samplePO]
    board := [some Mark.X, none, none, none, none, none, none, none, none]
    currentPlayer := Mark.O
    status := "in-progress"
    winner := none }

/-- Witness for `makeMove_applies`: X plays cell 0 of the sample session
and the hypotheses hold by computation. -/
theorem makeMove_applies_witness :
    (makeMove [("game_w", sampleGame)] "game_w" 0 "sA").2 = none ∧
    ∃ game',
      getGame (makeMove [("game_w", sampleGame)] "game_w" 0 "sA").1
        "game_w" = some game' ∧
      game'.board =
        sampleGame.board.set (Int.toNat 0) (some samplePX.symbol) ∧
      (∀ t : Mark, checkWinner game'.board = some (WinResult.sym t) →
        game'.winner = some (WinResult.sym t) ∧
        game'.currentPlayer = sampleGame.currentPlayer) ∧
      (checkWinner game'.board = some WinResult.tie →
        game'.winner = some WinResult.tie) ∧
      (checkWinner game'.board = none →
        game'.currentPlayer = flipMark sampleGame.currentPlayer) :=
  makeMove_applies [("game_w", sampleGame)] "game_w" 0 "sA" sampleGame
    samplePX rfl rfl rfl rfl

/-- Witness for `makeMove_validation`: a missing session, an occupied
cell, and an out-of-turn requester each produce their error with the store
unchanged. -/
theorem makeMove_validation_witness :
    makeMove [] "game_w" 0 "sA" = ([], some MoveErr.notFound) ∧
    makeMove [("game_t", takenGame)] "game_t" 0 "sB" =
      ([("game_t", takenGame)], some MoveErr.cellTaken) ∧
    makeMove [("game_t", takenGame)] "game_t" 1 "sA" =
      ([("game_t", takenGame)], some MoveErr.notYourTurn) :=
  ⟨(makeMove_validation [] "game_w" 0 "sA").1 rfl,
   (makeMove_validation [("game_t", takenGame)] "game_t" 0 "sB").2.1
     takenGame rfl (by decide),
   (makeMove_validation [("game_t", takenGame)] "game_t" 1 "sA").2.2
     takenGame rfl rfl
     (fun player hp => by
       have h2 : some samplePX = some player := by
         rw [← hp]
         rfl
       cases h2
       decide)⟩

/-- Witness for `makeMove_out_of_range`: cell index 9 on the sample
session yields `CellTaken` and leaves the store unchanged. -/
theorem makeMove_out_of_range_witness :
    makeMove [("game_w", sampleGame)] "game_w" 9 "sA" =
      ([("game_w", sampleGame)], some MoveErr.cellTaken) :=
  makeMove_out_of_range [("game_w", sampleGame)] "game_w" 9 "sA"
    sampleGame rfl rfl (Or.inr (by decide))

/-- Claim C6: for an existing session, `requestRematch` acknowledges
success and resets the board to all-empty, `currentPlayer` to X, `winner`
to `none` and `status` to in-progress while leaving the player list (hence
every participant's id, name and symbol) untouched, and leaves every other
session unchanged; for a missing session id it acknowledges `NotFound` and
changes nothing. -/
theorem requestRematch_spec (s : Store) (gameId : String) :
    (getGame s gameId = none →
      requestRematch s gameId = (s, RematchResult.notFound)) ∧
    (∀ game, getGame s gameId = some game →
      (requestRematch s gameId).2 = RematchResult.success ∧
      ∃ game',
        getGame (requestRematch s gameId).1 gameId = some game' ∧
        game'.board = List.replicate 9 none ∧
        game'.currentPlayer = Mark.X ∧
        game'.winner = none ∧
        game'.status = "in-progress" ∧
        game'.players = game.players ∧
        ∀ k, k ≠ gameId →
          getGame (requestRematch s gameId).1 k = getGame s k) := by
  constructor
  · intro h
    unfold requestRematch
    rw [h]
  · intro game hg
    unfold requestRematch
    rw [hg]
    refine ⟨rfl, _, getGame_setGame_self s gameId _, rfl, rfl, rfl, rfl,
      rfl, ?_⟩
    intro k hk
    exact getGame_setGame_ne s gameId k _ hk

/-- Witness for `requestRematch_spec`: rematch on the sample session after
a take succeeds and resets the record. -/
theorem requestRematch_spec_witness :
    (requestRematch [("game_t", takenGame)] "game_t").2 =
      RematchResult.success ∧
    ∃ game',
      getGame (requestRematch [("game_t", takenGame)] "game_t").1
        "game_t" = some game' ∧
      game'.board = List.replicate 9 none ∧
      game'.currentPlayer = Mark.X ∧
      game'.winner = none ∧
      game'.status = "in-progress" ∧
      game'.players = takenGame.players ∧
      ∀ k, k ≠ "game_t" →
        getGame (requestRematch [("game_t", takenGame)] "game_t").1 k =
          getGame [("game_t", takenGame)] k :=
  (requestRematch_spec [("game_t", takenGame)] "game_t").2 takenGame rfl

/-- Claim C7: `joinGame` fails with `NotFound` for a missing session and
with `Full` for a session that already has 2 participants (so a third join
always fails); otherwise it appends a symbol-O participant and sets
`status` to in-progress; on both error outcomes the store is returned
unchanged. -/
theorem joinGame_spec (s : Store) (gameId : String)
    (username : Option String) (defaultNum : Nat) (socketId : String) :
    (getGame s gameId = none →
      joinGame s gameId username defaultNum socketId =
        (s, JoinResult.notFound)) ∧
    (∀ game, getGame s gameId = some game → game.players.length = 2 →
      joinGame s gameId username defaultNum socketId =
        (s, JoinResult.full)) ∧
    (∀ game, getGame s gameId = some game → game.players.length < 2 →
      (joinGame s gameId username defaultNum socketId).2 =
        JoinResult.success Mark.O ∧
      ∃ game',
        getGame (joinGame s gameId username defaultNum socketId).1
          gameId = some game' ∧
        game'.players = game.players ++
          [{ id := socketId
             username := defaultName username
               ("Player_" ++ toString defaultNum)
             symbol := Mark.O
             disconnected := false }] ∧
        game'.status = "in-progress") := by
  refine ⟨?_, ?_, ?_⟩
  · intro h
    unfold joinGame
    rw [h]
  · intro game hg hfull
    unfold joinGame
    rw [hg]
    simp [hfull]
  · intro game hg hroom
    have hlt : ¬ game.players.length ≥ 2 := by omega
    unfold joinGame
    rw [hg]
    simp only [hlt, if_false]
    exact ⟨trivial, _, getGame_setGame_self s gameId _, rfl, rfl⟩

/-- A one-player session as `createGame` makes it. -/
def waitingGame : Game :=
  { players := [samplePX]
    board := List.replicate 9 none
    currentPlayer := Mark.X
    status := "waiting"
    winner := none }

/-- Witness for `joinGame_spec`: joining the waiting sample session as a
second player succeeds with symbol O; a join against the full sample
session yields `Full`; a join against the empty store yields `NotFound`. -/
theorem joinGame_spec_witness :
    joinGame [] "game_w" (some "Bob") 0 "sB" = ([], JoinResult.notFound) ∧
    joinGame [("game_w", sampleGame)] "game_w" (some "Carol") 0 "sC" =
      ([("game_w", sampleGame)], JoinResult.full) ∧
    ((joinGame [("game_w", waitingGame)] "game_w" (some "Bob") 0 "sB").2 =
      JoinResult.success Mark.O ∧
    ∃ game',
      getGame
        (joinGame [("game_w", waitingGame)] "game_w" (some "Bob") 0
          "sB").1 "game_w" = some game' ∧
      game'.players = waitingGame.players ++
        [{ id := "sB"
           username := defaultName (some "Bob") ("Player_" ++ toString 0)
           symbol := Mark.O
           disconnected := false }] ∧
      game'.status = "in-progress") :=
  ⟨(joinGame_spec [] "game_w" (some "Bob") 0 "sB").1 rfl,
   (joinGame_spec [("game_w", sampleGame)] "game_w" (some "Carol") 0
     "sC").2.1 sampleGame rfl rfl,
   (joinGame_spec [("game_w", waitingGame)] "game_w" (some "Bob") 0
     "sB").2.2 waitingGame rfl (by decide)⟩

theorem getGame_delGame_self (s : Store) (k : String) :
    getGame (delGame s k) k = none := by
  rw [getGame_eq_none_iff]
  intro e he
  have := List.of_mem_filter he
  simpa using this

theorem disconnectScan_cons (socketId gid : String) (game : Game)
    (l : Store) :
    disconnectScan socketId ((gid, game) :: l) =
      match game.players.findIdx? (fun p => p.id == socketId) with
      | some i =>
          match game.players.eraseIdx i with
          | [] => (l, [])
          | q :: qs =>
              ((gid, { game with players := q :: qs }) :: l,
               [Event.playerLeft q.id])
      | none =>
          ((gid, game) :: (disconnectScan socketId l).1,
           (disconnectScan socketId l).2) := rfl

theorem disconnectScan_no_match_append (pre rest : Store)
    (socketId : String)
    (h : ∀ e ∈ pre, ∀ p ∈ e.2.players, p.id ≠ socketId) :
    disconnectScan socketId (pre ++ rest) =
      (pre ++ (disconnectScan socketId rest).1,
       (disconnectScan socketId rest).2) := by
  induction pre with
  | nil => rfl
  | cons e pre ih =>
      obtain ⟨gid, game⟩ := e
      have hfind : game.players.findIdx? (fun p => p.id == socketId) =
          none := by
        rw [List.findIdx?_eq_none_iff]
        intro p hp
        simpa using h (gid, game) (List.mem_cons_self _ _) p hp
      rw [List.cons_append, disconnectScan_cons]
      simp only [hfind]
      rw [ih (fun e he => h e (List.mem_cons_of_mem _ he))]
      rfl

/-- Claim C8: when a participant disconnects or leaves, if one participant
remains after the removal that participant is sent `playerLeft`; if none
remain the session record is deleted and a later lookup of its id finds
nothing; and the disconnect scan touches only the first session containing
the connection — sessions before it (which do not contain it) and after it
are returned verbatim, as the loop breaks after the first match. -/
theorem leave_disconnect_spec :
    (∀ (pre post : Store) (gameId : String) (game : Game)
       (socketId : String) (i : Nat),
       (∀ e ∈ pre, ∀ p ∈ e.2.players, p.id ≠ socketId) →
       game.players.findIdx? (fun p => p.id == socketId) = some i →
       (∀ e ∈ pre ++ post, e.1 ≠ gameId) →
       ((game.players.eraseIdx i = [] →
          disconnectGame (pre ++ (gameId, game) :: post) socketId =
            (pre ++ post, []) ∧
          getGame (pre ++ post) gameId = none) ∧
        (∀ q, game.players.eraseIdx i = [q] →
          disconnectGame (pre ++ (gameId, game) :: post) socketId =
            (pre ++ (gameId, { game with players := [q] }) :: post,
             [Event.playerLeft q.id])))) ∧
    (∀ (s : Store) (gameId : String) (game : Game) (socketId : String)
       (i : Nat),
       getGame s gameId = some game →
       game.players.findIdx? (fun p => p.id == socketId) = some i →
       ((game.players.eraseIdx i = [] →
          leaveGame s gameId socketId = (delGame s gameId, []) ∧
          getGame (delGame s gameId) gameId = none) ∧
        (∀ q, game.players.eraseIdx i = [q] →
          leaveGame s gameId socketId =
            (setGame s gameId { game with players := [q] },
             [Event.playerLeft q.id])))) := by
  constructor
  · intro pre post gameId game socketId i hpre hidx hkeys
    have hhead : disconnectGame (pre ++ (gameId, game) :: post) socketId =
        (pre ++ (disconnectScan socketId ((gameId, game) :: post)).1,
         (disconnectScan socketId ((gameId, game) :: post)).2) :=
      disconnectScan_no_match_append pre ((gameId, game) :: post)
        socketId hpre
    constructor
    · intro herase
      have hstep : disconnectScan socketId ((gameId, game) :: post) =
          (post, []) := by
        rw [disconnectScan_cons]
        simp only [hidx, herase]
      rw [hhead, hstep]
      exact ⟨rfl, (getGame_eq_none_iff _ _).mpr hkeys⟩
    · intro q herase
      have hstep : disconnectScan socketId ((gameId, game) :: post) =
          ((gameId, { game with players := [q] }) :: post,
           [Event.playerLeft q.id]) := by
        rw [disconnectScan_cons]
        simp only [hidx, herase]
      rw [hhead, hstep]
  · intro s gameId game socketId i hg hidx
    constructor
    · intro herase
      have hstep : leaveGame s gameId socketId =
          (delGame s gameId, []) := by
        unfold leaveGame
        simp only [hg, hidx, herase]
      exact ⟨hstep, getGame_delGame_self s gameId⟩
    · intro q herase
      unfold leaveGame
      simp only [hg, hidx, herase]

/-- A one-player session holding only the joiner-side participant. -/
def soloB : Game :=
  { players := [samplePO]
    board := List.replicate 9 none
    currentPlayer := Mark.X
    status := "in-progress"
    winner := none }

/-- Witness for `leave_disconnect_spec`: a disconnect that empties a
session deletes it, a disconnect from a two-player session notifies the
peer, and likewise for explicit leaves. -/
theorem leave_disconnect_spec_witness :
    (disconnectGame [("game_a", waitingGame), ("game_b", soloB)] "sB" =
      ([("game_a", waitingGame)], []) ∧
     getGame [("game_a", waitingGame)] "game_b" = none) ∧
    disconnectGame [("game_w", sampleGame)] "sB" =
      ([("game_w", { sampleGame with players := [samplePX] })],
       [Event.playerLeft samplePX.id]) ∧
    (leaveGame [("game_b", soloB)] "game_b" "sB" =
      (delGame [("game_b", soloB)] "game_b", []) ∧
     getGame (delGame [("game_b", soloB)] "game_b") "game_b" = none) ∧
    leaveGame [("game_w", sampleGame)] "game_w" "sB" =
      (setGame [("game_w", sampleGame)] "game_w"
        { sampleGame with players := [samplePX] },
       [Event.playerLeft samplePX.id]) :=
  ⟨(leave_disconnect_spec.1 [("game_a", waitingGame)] [] "game_b" soloB
      "sB" 0 (by decide) rfl (by decide)).1 rfl,
   (leave_disconnect_spec.1 [] [] "game_w" sampleGame "sB" 1
      (by simp) rfl (by simp)).2 samplePX rfl,
   (leave_disconnect_spec.2 [("game_b", soloB)] "game_b" soloB "sB" 0
      rfl rfl).1 rfl,
   (leave_disconnect_spec.2 [("game_w", sampleGame)] "game_w" sampleGame
      "sB" 1 rfl rfl).2 samplePX rfl⟩

/-- Claim C9 (counterexample): session-id uniqueness relies on the random
token alone — `createGame` performs no collision check, so a token that
collides with a live session's id silently overwrites ("displaces") that
session: here the live record under `"game_abc"` is replaced by the new
one. -/
theorem createGame_collision_counterexample :
    (createGame [("game_abc", sampleGame)] "abc" (some "Carol") 0
        "sC").1 =
      [("game_abc",
        { players := [{ id := "sC", username := "Carol",
                        symbol := Mark.X, disconnected := false }]
          board := List.replicate 9 none
          currentPlayer := Mark.X
          status := "waiting"
          winner := none })] ∧
    getGame (createGame [("game_abc", sampleGame)] "abc" (some "Carol") 0
        "sC").1 "game_abc" ≠ some sampleGame := by
  constructor
  · rfl
  · decide

/-- Claim C9 (amended): when the generated id `"game_" ++ token` is fresh
— not the id of any live session — `createGame` appends the new record:
every existing session is still found unchanged under its own id, the new
id maps to the new record, and distinct ids stay distinct.  Without the
freshness assumption the claim fails (see the collision
counterexample). -/
theorem createGame_fresh_spec (s : Store) (token : String)
    (username : Option String) (defaultNum : Nat) (socketId : String)
    (hfresh : getGame s ("game_" ++ token) = none) :
    (createGame s token username defaultNum socketId).1 =
      s ++ [("game_" ++ token,
        { players := [{ id := socketId
                        username := defaultName username
                          ("Player_" ++ toString defaultNum)
                        symbol := Mark.X
                        disconnected := false }]
          board := List.replicate 9 none
          currentPlayer := Mark.X
          status := "waiting"
          winner := none })] ∧
    (∀ k, k ≠ "game_" ++ token →
      getGame (createGame s token username defaultNum socketId).1 k =
        getGame s k) ∧
    getGame (createGame s token username defaultNum socketId).1
        ("game_" ++ token) =
      some
        { players := [{ id := socketId
                        username := defaultName username
                          ("Player_" ++ toString defaultNum)
                        symbol := Mark.X
                        disconnected := false }]
          board := List.replicate 9 none
          currentPlayer := Mark.X
          status := "waiting"
          winner := none } ∧
    ((s.map Prod.fst).Nodup →
      (((createGame s token username defaultNum socketId).1).map
        Prod.fst).Nodup) := by
  refine ⟨setGame_of_fresh s _ _ hfresh, ?_, ?_, ?_⟩
  · intro k hk
    exact getGame_setGame_ne s _ k _ hk
  · exact getGame_setGame_self s _ _
  · intro hnd
    show ((setGame s ("game_" ++ token)
      { players := [{ id := socketId
                      username := defaultName username
                        ("Player_" ++ toString defaultNum)
                      symbol := Mark.X
                      disconnected := false }]
        board := List.replicate 9 none
        currentPlayer := Mark.X
        status := "waiting"
        winner := none }).map Prod.fst).Nodup
    rw [setGame_of_fresh s _ _ hfresh, List.map_append]
    rw [List.nodup_append]
    refine ⟨hnd, List.nodup_singleton _, ?_⟩
    intro a ha hb
    rcases List.mem_singleton.mp hb with rfl
    obtain ⟨e, he, hee⟩ := List.mem_map.mp ha
    exact (getGame_eq_none_iff s _).mp hfresh e he hee

/-- Witness for `createGame_fresh_spec`: creating in the empty store. -/
theorem createGame_fresh_spec_witness :
    (createGame [] "abc" none 5 "sA").1 =
      [] ++ [("game_" ++ "abc",
        { players := [{ id := "sA"
                        username := defaultName none
                          ("Player_" ++ toString 5)
                        symbol := Mark.X
                        disconnected := false }]
          board := List.replicate 9 none
          currentPlayer := Mark.X
          status := "waiting"
          winner := none })] ∧
    (∀ k, k ≠ "game_" ++ "abc" →
      getGame (createGame [] "abc" none 5 "sA").1 k = getGame [] k) ∧
    getGame (createGame [] "abc" none 5 "sA").1 ("game_" ++ "abc") =
      some
        { players := [{ id := "sA"
                        username := defaultName none
                          ("Player_" ++ toString 5)
                        symbol := Mark.X
                        disconnected := false }]
          board := List.replicate 9 none
          currentPlayer := Mark.X
          status := "waiting"
          winner := none } ∧
    ((([] : Store).map Prod.fst).Nodup →
      (((createGame [] "abc" none 5 "sA").1).map Prod.fst).Nodup) :=
  createGame_fresh_spec [] "abc" none 5 "sA" rfl

/-- An event trace that creates a session, joins a second player, and
plays X to a row-0 win: board `[X,X,X,_,O,O,_,_,_]`, winner X. -/
def winTraceOps : List Op :=
  [Op.create "abc" (some "Alice") 0 "sA",
   Op.join "game_abc" (some "Bob") 0 "sB",
   Op.move "game_abc" 0 "sA",
   Op.move "game_abc" 4 "sB",
   Op.move "game_abc" 1 "sA",
   Op.move "game_abc" 5 "sB",
   Op.move "game_abc" 2 "sA"]

/-- Claim C5 (counterexample): a decided (won) session accepts further
moves.  After the reachable win trace the session's winner is X, yet a
further `makeMove` by X — whose symbol still equals `currentPlayer`, which
a win leaves unchanged — succeeds and mutates the store: `makeMove` never
consults `winner`. -/
theorem makeMove_after_win_counterexample :
    (getGame (runOps [] winTraceOps) "game_abc").map Game.winner =
      some (some (WinResult.sym Mark.X)) ∧
    (makeMove (runOps [] winTraceOps) "game_abc" 3 "sA").2 = none ∧
    (makeMove (runOps [] winTraceOps) "game_abc" 3 "sA").1 ≠
      runOps [] winTraceOps := by
  decide

/-- Claim C5 (amended): a `Tie` terminal state does reject every further
move: when the session's winner is `Tie` and its board is full (as every
board that evaluates to `Tie` is), every `makeMove` fails with `CellTaken`
and leaves the store unchanged.  A *won* session does not block the
winner, whose symbol still equals `currentPlayer` (see the
counterexample); only a rematch reset frees the board. -/
theorem makeMove_after_tie_blocked (s : Store) (gameId : String)
    (cellIndex : Int) (socketId : String) (game : Game)
    (hg : getGame s gameId = some game)
    (_hwin : game.winner = some WinResult.tie)
    (hfull : ∀ c ∈ game.board, c ≠ none) :
    makeMove s gameId cellIndex socketId = (s, some MoveErr.cellTaken) := by
  have hcnn : cellNotNull game.board cellIndex = true := by
    rw [cellNotNull_eq_true_iff]
    intro hread
    unfold jsRead at hread
    split at hread
    · cases hread
    · exact hfull none (List.get?_mem hread) rfl
  unfold makeMove
  rw [hg]
  simp only [hcnn, if_true]

/-- A tied sample session: the specification's tie example board
`[X,O,X,X,O,O,O,X,X]`. -/
def tieGame : Game :=
  { players := [samplePX, samplePO]
    board := [some Mark.X, some Mark.O, some Mark.X,
              some Mark.X, some Mark.O, some Mark.O,
              some Mark.O, some Mark.X, some Mark.X]
    currentPlayer := Mark.O
    status := "in-progress"
    winner := some WinResult.tie }

/-- Witness for `makeMove_after_tie_blocked` on the tied sample session. -/
theorem makeMove_after_tie_blocked_witness :
    makeMove [("game_w", tieGame)] "game_w" 4 "sB" =
      ([("game_w", tieGame)], some MoveErr.cellTaken) :=
  makeMove_after_tie_blocked [("game_w", tieGame)] "game_w" 4 "sB"
    tieGame rfl rfl (by decide)

/-- The win trace extended with a second session whose joiner then
disconnects. -/
def invTraceOps : List Op :=
  winTraceOps ++
  [Op.create "def" (some "Carol") 0 "sC",
   Op.join "game_def" (some "Dave") 0 "sD",
   Op.disconnect "sD"]

/-- Claim C4 (counterexample): both claimed iffs fail on reachable
states.  After the trace, session `"game_abc"` has `winner = X` but
`status = "in-progress"` — the code never assigns `"finished"` — and
session `"game_def"` has a single remaining player but
`status = "in-progress"`, not `"waiting"`. -/
theorem status_invariant_counterexample :
    (getGame (runOps [] invTraceOps) "game_abc").map
        (fun g => (g.winner, g.status)) =
      some (some (WinResult.sym Mark.X), "in-progress") ∧
    (getGame (runOps [] invTraceOps) "game_def").map
        (fun g => (g.players.length, g.status)) =
      some (1, "in-progress") := by
  decide

/-- The status discipline the code does maintain: a session's status is
always `"waiting"` or `"in-progress"`, and a waiting session has fewer
than two players. -/
def StatusInv (s : Store) : Prop :=
  ∀ e ∈ s, (e.2.status = "waiting" ∨ e.2.status = "in-progress") ∧
    (e.2.status = "waiting" → e.2.players.length < 2)

theorem mem_disconnectScan (socketId : String) (l : Store)
    (e : String × Game) (he : e ∈ (disconnectScan socketId l).1) :
    ∃ e' ∈ l, e.2.status = e'.2.status ∧
      e.2.players.length ≤ e'.2.players.length := by
  induction l with
  | nil => cases he
  | cons hd tl ih =>
      obtain ⟨gid, game⟩ := hd
      rw [disconnectScan_cons] at he
      cases hidx : game.players.findIdx? (fun p => p.id == socketId) with
      | some i =>
          simp only [hidx] at he
          cases herase : game.players.eraseIdx i with
          | nil =>
              simp only [herase] at he
              exact ⟨e, List.mem_cons_of_mem _ he, rfl, le_refl _⟩
          | cons q qs =>
              simp only [herase] at he
              rcases List.mem_cons.mp he with rfl | hmem
              · refine ⟨(gid, game), List.mem_cons_self _ _, rfl, ?_⟩
                show (q :: qs).length ≤ game.players.length
                rw [← herase]
                exact List.length_eraseIdx_le _ _
              · exact ⟨e, List.mem_cons_of_mem _ hmem, rfl, le_refl _⟩
      | none =>
          simp only [hidx] at he
          rcases List.mem_cons.mp he with rfl | hmem
          · exact ⟨(gid, game), List.mem_cons_self _ _, rfl, le_refl _⟩
          · obtain ⟨e', he', h1, h2⟩ := ih hmem
            exact ⟨e', List.mem_cons_of_mem _ he', h1, h2⟩

theorem mem_applyOp (s : Store) (op : Op) (e : String × Game)
    (he : e ∈ applyOp s op) :
    (∃ e' ∈ s, e.2.status = e'.2.status ∧
       e.2.players.length ≤ e'.2.players.length) ∨
    (e.2.status = "waiting" ∧ e.2.players.length = 1) ∨
    e.2.status = "in-progress" := by
  cases op with
  | create token username defaultNum socketId =>
      rcases mem_setGame _ _ _ _ he with rfl | hmem
      · right; left; exact ⟨rfl, rfl⟩
      · left; exact ⟨e, hmem, rfl, le_refl _⟩
  | join gameId username defaultNum socketId =>
      simp only [applyOp, joinGame] at he
      cases hg : getGame s gameId with
      | none =>
          rw [hg] at he
          left; exact ⟨e, he, rfl, le_refl _⟩
      | some game =>
          simp only [hg] at he
          by_cases hfull : game.players.length ≥ 2
          · rw [if_pos hfull] at he
            left; exact ⟨e, he, rfl, le_refl _⟩
          · rw [if_neg hfull] at he
            rcases mem_setGame _ _ _ _ he with rfl | hmem
            · right; right; rfl
            · left; exact ⟨e, hmem, rfl, le_refl _⟩
  | move gameId cellIndex socketId =>
      simp only [applyOp, makeMove] at he
      cases hg : getGame s gameId with
      | none =>
          rw [hg] at he
          left; exact ⟨e, he, rfl, le_refl _⟩
      | some game =>
          simp only [hg] at he
          by_cases hcnn : cellNotNull game.board cellIndex
          · simp only [hcnn, if_true] at he
            left; exact ⟨e, he, rfl, le_refl _⟩
          · simp only [Bool.not_eq_true] at hcnn
            simp only [hcnn, Bool.false_eq_true, if_false] at he
            cases hfind :
                game.players.find? (fun p => p.id == socketId) with
            | none =>
                simp only [hfind] at he
                left; exact ⟨e, he, rfl, le_refl _⟩
            | some player =>
                simp only [hfind] at he
                by_cases hsym : player.symbol ≠ game.currentPlayer
                · rw [if_pos hsym] at he
                  left; exact ⟨e, he, rfl, le_refl _⟩
                · rw [if_neg hsym] at he
                  cases hcw : checkWinner
                      (game.board.set cellIndex.toNat
                        (some game.currentPlayer)) with
                  | some w =>
                      simp only [hcw] at he
                      rcases mem_setGame _ _ _ _ he with rfl | hmem
                      · left
                        exact ⟨(gameId, game), getGame_mem s gameId game hg,
                          rfl, le_refl _⟩
                      · left; exact ⟨e, hmem, rfl, le_refl _⟩
                  | none =>
                      simp only [hcw] at he
                      rcases mem_setGame _ _ _ _ he with rfl | hmem
                      · left
                        exact ⟨(gameId, game), getGame_mem s gameId game hg,
                          rfl, le_refl _⟩
                      · left; exact ⟨e, hmem, rfl, le_refl _⟩
  | rematch gameId =>
      simp only [applyOp, requestRematch] at he
      cases hg : getGame s gameId with
      | none =>
          rw [hg] at he
          left; exact ⟨e, he, rfl, le_refl _⟩
      | some game =>
          simp only [hg] at he
          rcases mem_setGame _ _ _ _ he with rfl | hmem
          · right; right; rfl
          · left; exact ⟨e, hmem, rfl, le_refl _⟩
  | leave gameId socketId =>
      simp only [applyOp, leaveGame] at he
      cases hg : getGame s gameId with
      | none =>
          rw [hg] at he
          left; exact ⟨e, he, rfl, le_refl _⟩
      | some game =>
          simp only [hg] at he
          cases hidx :
              game.players.findIdx? (fun p => p.id == socketId) with
          | none =>
              simp only [hidx] at he
              left; exact ⟨e, he, rfl, le_refl _⟩
          | some i =>
              simp only [hidx] at he
              cases herase : game.players.eraseIdx i with
              | nil =>
                  simp only [herase] at he
                  left
                  exact ⟨e, mem_delGame s gameId e he, rfl, le_refl _⟩
              | cons q qs =>
                  simp only [herase] at he
                  rcases mem_setGame _ _ _ _ he with rfl | hmem
                  · left
                    refine ⟨(gameId, game), getGame_mem s gameId game hg,
                      rfl, ?_⟩
                    show (q :: qs).length ≤ game.players.length
                    rw [← herase]
                    exact List.length_eraseIdx_le _ _
                  · left; exact ⟨e, hmem, rfl, le_refl _⟩
  | disconnect socketId =>
      obtain ⟨e', he', h1, h2⟩ := mem_disconnectScan socketId s e he
      left; exact ⟨e', he', h1, h2⟩

/-- Claim C4 (amended): in every reachable store the claimed iffs hold
only in these weakened forms — a session's status is `"waiting"` or
`"in-progress"`, never `"finished"` (so `status == finished ↔ winner ≠
none` fails whenever a game is decided), and `status = "waiting"` implies
`players.length < 2`, while the converse implication fails after a
disconnect (see the counterexample). -/
theorem reachable_status_invariant (s : Store) (h : Reachable s) :
    StatusInv s := by
  induction h with
  | empty => intro e he; cases he
  | next hs op ih =>
      intro e he
      rcases mem_applyOp _ op e he with ⟨e', he', hst, hlen⟩ |
        ⟨hw, hl⟩ | hip
      · obtain ⟨hset, himp⟩ := ih e' he'
        refine ⟨by rw [hst]; exact hset, fun hw => ?_⟩
        have : e'.2.status = "waiting" := by rw [← hst]; exact hw
        exact lt_of_le_of_lt hlen (himp this)
      · exact ⟨Or.inl hw, fun _ => by rw [hl]; omega⟩
      · refine ⟨Or.inr hip, fun hww => ?_⟩
        rw [hip] at hww
        exact absurd hww (by decide)

/-- Witness for `reachable_status_invariant` on the concrete trace
store. -/
theorem reachable_status_invariant_witness :
    StatusInv (runOps [] invTraceOps) :=
  reachable_status_invariant (runOps [] invTraceOps)
    (reachable_runOps [] Reachable.empty invTraceOps)
